import Mathlib

/-!
Verification of the du-rs traversal-and-accounting engine (src/src/main.rs).

This file gives a shallow embedding, in Lean, of the size model, size
formatters, size-string parser, and the fd-based recursive directory walker
of the program, and proves (or refutes) the frozen specification claims
about them.

Modelling conventions:
* Rust `i64` values are modelled as `Int`.  Arithmetic that cannot overflow
  for the values of interest is modelled exactly; where the source can
  overflow an `i64` (the unit-threshold products in `get_file_sizes`) the
  wrap-around of release-mode Rust is modelled explicitly via `wrap64`.
* Rust `f64` arithmetic on integral powers of two (the `UNITS` divisors)
  is exact, so the divisors are modelled as `Int`.  The one-fractional-digit
  decimal rendering of an `f64` quotient is not modelled as a string; the
  walker-independent formatters instead return the exact numerator/divisor
  pair that the source formats (noted at each definition).
* Syscalls are modelled by per-node success flags on a tree-shaped
  filesystem value; the walker is a pure function of the tree.
-/

namespace DuRs

/-- `struct FileStats { size: i64, blocks: i64 }` (main.rs lines 20-23). -/
structure FileStats where
  size : Int
  blocks : Int
deriving DecidableEq, Repr

/-- `FileStats::size_in_bytes` (main.rs line 26). -/
def FileStats.size_in_bytes (s : FileStats) : Int := s.size

/-- `FileStats::disk_usage_blocks` (main.rs line 29): `(blocks * 512) / 1024`
with Rust `i64` division (truncation toward zero, `Int.tdiv`). -/
def FileStats.disk_usage_blocks (s : FileStats) : Int := (s.blocks * 512).tdiv 1024

/-- `FileStats::disk_usage_bytes` (main.rs line 32): `blocks * 512`. -/
def FileStats.disk_usage_bytes (s : FileStats) : Int := s.blocks * 512

/-- `enum SizeFormat { Bytes, HumanReadable, Blocks }` (main.rs lines 110-114).
The spec calls the variants `Bytes`, `HumanReadableDiskUsage`, `BlockDiskUsage`. -/
inductive SizeFormat where
  | Bytes
  | HumanReadable
  | Blocks
deriving DecidableEq, Repr

/-- `SizeFormat::get_dir_size` (main.rs lines 118-124). -/
def SizeFormat.get_dir_size : SizeFormat → FileStats → Int
  | .Bytes, _ => 0
  | .HumanReadable, stats => stats.disk_usage_bytes
  | .Blocks, stats => stats.disk_usage_blocks

/-- `SizeFormat::get_file_size` (main.rs lines 127-133). -/
def SizeFormat.get_file_size : SizeFormat → FileStats → Int
  | .Bytes, stats => stats.size_in_bytes
  | .HumanReadable, stats => stats.disk_usage_bytes
  | .Blocks, stats => stats.disk_usage_blocks

/-- `const UNITS: [(&str, f64); 7]` (main.rs lines 37-45).  Every divisor is
an integral power of two below 2^71, hence exactly representable as `f64`;
we carry the exact integer values. -/
def UNITS : List (String × Int) :=
  [("K", 1024),
   ("M", 1048576),
   ("G", 1073741824),
   ("T", 1099511627776),
   ("P", 1125899906842624),
   ("E", 1152921504606846976),
   ("Z", 1180591620717411303424)]

/-- Largest `i64` value. -/
def i64max : Int := 2 ^ 63 - 1

/-- Smallest `i64` value. -/
def i64min : Int := -(2 ^ 63)

/-- Two's-complement wrap-around to the `i64` range: the result of an
overflowing Rust `i64` operation in a release build (overflow checks off). -/
def wrap64 (x : Int) : Int := (x + 2 ^ 63) % 2 ^ 64 - 2 ^ 63

/-- Rust `f64 as i64` cast of an integral float: saturates at the `i64`
bounds (only the `Z` divisor, 2^70, is out of range among the `UNITS`). -/
def sat64 (x : Int) : Int := max i64min (min i64max x)

/-- Numeric value of a list of ASCII digit characters. -/
def digitsVal (cs : List Char) : Nat := cs.foldl (fun a c => a * 10 + (c.toNat - 48)) 0

/-- Rust `str::parse::<i64>`: an optional sign followed by one or more ASCII
digits, rejecting values outside the `i64` range. -/
def parse_i64 (s : String) : Option Int :=
  match
    (match s.toList with
      | '-' :: r => ((-1 : Int), r)
      | '+' :: r => ((1 : Int), r)
      | r => ((1 : Int), r)) with
  | (sign, ds) =>
      if ds ≠ [] ∧ ds.all Char.isDigit then
        if i64min ≤ sign * (digitsVal ds : Int) ∧ sign * (digitsVal ds : Int) ≤ i64max then
          some (sign * (digitsVal ds : Int))
        else none
      else none

/-- Split a character list at every dot, as `str::split` at `'.'` does
(`String.splitOn "."` on the underlying characters). -/
def splitOnDot : List Char → List (List Char)
  | [] => [[]]
  | c :: rest =>
      if c = '.' then [] :: splitOnDot rest
      else
        match splitOnDot rest with
        | g :: gs => (c :: g) :: gs
        | [] => [[c]]

/-- Rust `str::parse::<f64>` restricted to strings of ASCII digits and dots
(the only characters the numeric prefix of `parse_size_to_bytes` can
contain): accepts `digits`, `digits.digits`, `digits.` and `.digits`;
rejects the empty string, a lone dot and more than one dot.  The value —
necessarily non-negative — is carried exactly as a mantissa together with
the count of fractional digits, i.e. `mantissa / 10 ^ frac` (the rounding
to the nearest `f64` is abstracted; it is the identity below 2^53). -/
def parse_num (cs : List Char) : Option (Nat × Nat) :=
  match splitOnDot cs with
  | [a] =>
      if a ≠ [] ∧ a.all Char.isDigit then some (digitsVal a, 0) else none
  | [a, b] =>
      if (a ≠ [] ∨ b ≠ []) ∧ a.all Char.isDigit ∧ b.all Char.isDigit then
        some (digitsVal a * 10 ^ b.length + digitsVal b, b.length)
      else none
  | _ => none

/-- Rust `str::trim` followed by `str::to_uppercase`, on the underlying
character list (on ASCII text, where all inputs of interest live, Lean's
`Char.isWhitespace` and `Char.toUpper` agree with the Rust functions). -/
def trimUpper (s : String) : List Char :=
  (((s.data.dropWhile Char.isWhitespace).reverse.dropWhile
      Char.isWhitespace).reverse).map Char.toUpper

/-- `parse_size_to_bytes` (main.rs lines 47-60): trim and uppercase the
input, split it at the first character that is neither an ASCII digit nor a
dot, parse the prefix as a number, look the suffix up among the `UNITS`
(an unknown suffix means multiplier 1), and cast the product to `i64`. -/
def parse_size_to_bytes (size_str : String) : Option Int :=
  let cs := trimUpper size_str
  let numPart := cs.takeWhile (fun c => c.isDigit || c = '.')
  let unitPart : String := ⟨cs.drop numPart.length⟩
  match parse_num numPart with
  | none => none
  | some num =>
      let multiplier : Nat :=
        ((UNITS.find? (fun p => p.1 = unitPart)).map (fun p => p.2.toNat)).getD 1
      -- `(num_part * multiplier) as i64`: the value is non-negative, so the
      -- truncation toward zero is the floor `.. / 10 ^ frac` and the cast
      -- saturates only at the upper bound.
      some (sat64 ((num.1 * multiplier / 10 ^ num.2 : Nat) : Int))

/-- Result of `get_file_sizes` (main.rs lines 62-89) when called with an
explicit byte count (`bytes: Some(..)`; the `file_path` fallback re-stats a
path and is not exercised by the claims).  `plain b` denotes the output
`"{b}B"` of the `bytes < 1024` branch; `scaled n d u` denotes the output
of the `write!(output, "{:.1}{}", value, unit)` branch where
`value = (n as f64) / (d as f64)` — the one-fractional-digit decimal
rendering is not modelled further, the numerator/divisor pair determines
it. -/
inductive HumanSize where
  | plain (b : Int)
  | scaled (numer : Int) (divisor : Int) (unit : String)
deriving DecidableEq, Repr

/-- The scan loop of `get_file_sizes` (main.rs lines 80-86): the first entry
of `UNITS` whose threshold `(div as i64) * 1024` exceeds `bytes`.  The
threshold is computed with the source's `f64`-to-`i64` cast and wrapping
release-mode `i64` product: for `E` the product 2^70 wraps to 0 and for `Z`
the saturated cast times 1024 wraps to -1024, so neither can match. -/
def choose_unit (bytes : Int) : Option (String × Int) :=
  UNITS.find? (fun p => bytes < wrap64 (sat64 p.2 * 1024))

/-- `get_file_sizes` (main.rs lines 62-89).  When the loop matches no unit,
`unit` and `value` keep their initial values `"B"` and `bytes`. -/
def get_file_sizes (bytes : Int) : HumanSize :=
  if bytes < 1024 then .plain bytes
  else
    match choose_unit bytes with
    | some p => .scaled bytes p.2 p.1
    | none => .scaled bytes 1 "B"

/-- Exact ceiling of the rational `a / b` (for `b ≠ 0`), modelling the
source's `(a as f64 / b as f64).ceil()` (exact for quotients of magnitude
below 2^52): the ceiling is the negated floor division of the negation. -/
def ceil_div (a b : Int) : Int := -((-a).fdiv b)

/-- `format_size` (main.rs lines 91-106).  A unit-letter argument `-B<u>`
yields the ceiling of `size / divisor(u)` followed by the letter; otherwise
the text after `-B` must parse as an `i64` block size and the bare ceiling
of `size / block_size` is returned.  A block size of 0 makes the source's
`f64` quotient infinite (or NaN for size 0) and its `as i64` cast saturate,
modelled explicitly. -/
def format_size (size : Int) (arg : String) : Except String String :=
  let arg_from_2 : String := ⟨arg.data.drop 2⟩
  match UNITS.find? (fun p => arg = "-B" ++ p.1) with
  | some p => .ok (toString (ceil_div size p.2) ++ arg_from_2)
  | none =>
      match parse_i64 arg_from_2 with
      | some block_size =>
          .ok (toString
            (if block_size = 0 then
              if size > 0 then i64max else if size < 0 then i64min else 0
            else ceil_div size block_size))
      | none => .error "-B requires a valid argument"

/-- The stat attributes of one node (`st_dev`, `st_ino`, `st_nlink`,
`st_size`, `st_blocks`). -/
structure Meta where
  dev : Nat
  ino : Nat
  nlink : Nat
  size : Int
  blocks : Int
deriving DecidableEq, Repr

/-- The `FileStats` the walker builds from a stat result (main.rs lines
490-493 and 618-621). -/
def Meta.stats (m : Meta) : FileStats := ⟨m.size, m.blocks⟩

/-- A filesystem subtree as the walker observes it.
`file name statOk meta` is an entry whose dirent type is not `Directory`
(regular file, symlink, fifo, socket, ...); `dir name statOk openOk meta
children` is one whose dirent type is `Directory`.  `statOk` says whether
`fstatat` on the node succeeds — the parent-relative stat of the entry and
the `fstatat(fd, ".")` inside the opened directory address the same inode
and are modelled by the one flag.  `openOk` says whether `openat` on the
directory succeeds (for `follow_symlinks = false` a symlinked directory is
a `file` node: its dirent type is `Symlink`). -/
inductive FsTree where
  | file (name : String) (statOk : Bool) (meta : Meta)
  | dir (name : String) (statOk : Bool) (openOk : Bool) (meta : Meta)
      (children : List FsTree)
deriving Repr

def FsTree.name : FsTree → String
  | .file n _ _ => n
  | .dir n _ _ _ _ => n

def FsTree.statOk : FsTree → Bool
  | .file _ s _ => s
  | .dir _ s _ _ _ => s

def FsTree.meta : FsTree → Meta
  | .file _ _ m => m
  | .dir _ _ _ m _ => m

def FsTree.isDir : FsTree → Bool
  | .file _ _ _ => false
  | .dir _ _ _ _ _ => true

/-- Rust `Path::extension` on a bare file name (no separators): the part
after the last dot, provided something nonempty precedes that dot. -/
def extension (name : String) : Option String :=
  match splitOnDot name.data with
  | [] => none
  | [_] => none
  | [[], _] => none
  | ps => ps.getLast?.map (fun cs => ⟨cs⟩)

/-- The arguments of `recursive_dir_iter` (main.rs lines 444-463) that are
constant through the recursion.  `use_exclusion` is `exclude_path.is_some()`
(line 468).  The `writer`, the `block_size` rendering and the
`format`/`is_bytes` printing flags only affect how emitted sizes are
rendered, not which lines are emitted and not any total; output is
modelled as the list of (size, path) pairs handed to `writeln!`. -/
structure Config where
  max_depth : Int
  root_dev : Option Nat
  exclusion_paths : List String
  exclusion_patterns : List String
  summarize : Bool
  list_files : Bool
  threshold_size : Int
  follow_symlinks : Bool
  count_hard_links : Bool
  use_exclusion : Bool
  size_format : SizeFormat
deriving Repr

/-- The mutable state threaded through the recursion: the `seen_inodes`
set (`FxHashSet<(u64, u64)>`, modelled as a list with insert-if-absent)
and the lines written so far. -/
structure WalkState where
  seen : List (Nat × Nat)
  output : List (Int × String)
deriving DecidableEq, Repr

/-- The device-boundary test (main.rs lines 484-488): `root_dev` is bound
and the stat's device differs. -/
def devMismatch : Option Nat → Nat → Bool
  | some dev, d => decide (d ≠ dev)
  | none, _ => false

/-- The per-entry exclusion test (main.rs lines 525-531): the *bare entry
name* is looked up in `exclusion_paths`, and the name's extension in
`exclusion_patterns`. -/
def excluded (cfg : Config) (name : String) : Bool :=
  cfg.use_exclusion &&
    (cfg.exclusion_paths.contains name ||
      ((extension name).map (fun e => cfg.exclusion_patterns.contains e)).getD false)

/-- `path_bytes` extension (main.rs lines 569-574 and 627-632): push `'/'`
only when the buffer is nonempty, then the entry name. -/
def pushPath (path name : String) : String :=
  if path.isEmpty then name else path ++ "/" ++ name

/-- Outcome of the per-entry checks for one directory entry. -/
inductive EntryAction where
  | skip (st : WalkState)
  | subdir (childPath : String) (st : WalkState)
  | leaf (delta : Int) (st : WalkState)
deriving Repr

/-- The per-entry checks of the entry loop of `recursive_dir_iter`
(main.rs lines 501-651), in source order: skip `.` and `..`; stat the
entry relative to the parent fd (failure ⇒ skip); the exclusion test; the
hard-link identity test (insert-if-absent into `seen_inodes` when
`count_hard_links` is off and `nlink > 1`, skip when the identity was
already present); then dispatch on the dirent type.  A directory entry is
skipped at the depth boundary (`max_depth > 0 && current_depth >=
max_depth`) — after the identity insert, which persists — and skipped if
its `openat` fails; otherwise `subdir` records the pushed path for the
recursive call.  A non-directory entry contributes `get_file_size` of its
stats and is emitted immediately when `list_files` is on, `summarize` off
and the size meets the threshold.  Every `skip` is a `continue` of the
source and contributes nothing. -/
def entryCheck (cfg : Config) (c : FsTree) (current_depth : Int) (path : String)
    (st : WalkState) : EntryAction :=
  if c.name = "." ∨ c.name = ".." then .skip st
  else if c.statOk = false then .skip st
  else if excluded cfg c.name then .skip st
  else
    let idStep : Bool × List (Nat × Nat) :=
      if cfg.count_hard_links = false ∧ c.meta.nlink > 1 then
        if (c.meta.dev, c.meta.ino) ∈ st.seen then (true, st.seen)
        else (false, (c.meta.dev, c.meta.ino) :: st.seen)
      else (false, st.seen)
    if idStep.1 then .skip st
    else
      let st1 : WalkState := ⟨idStep.2, st.output⟩
      match c with
      | .dir name _ openOk _ _ =>
          if cfg.max_depth > 0 ∧ current_depth ≥ cfg.max_depth then .skip st1
          else if openOk = false then .skip st1
          else .subdir (pushPath path name) st1
      | .file name _ m =>
          let fsize := cfg.size_format.get_file_size m.stats
          if cfg.list_files = true ∧ cfg.summarize = false ∧ fsize ≥ cfg.threshold_size then
            .leaf fsize ⟨st1.seen, st1.output ++ [(fsize, pushPath path name)]⟩
          else .leaf fsize st1

mutual

/-- `recursive_dir_iter` (main.rs lines 444-654) on an already-opened
directory `t` (the `raw_fd`): `fstatat(fd, ".")` (failure ⇒ total 0),
return 0 on a device mismatch against `root_dev`, seed the total with
`get_dir_size` of the directory's own stats, then fold the entry loop over
the children.  `Dir::from_fd` on the freshly opened descriptor is assumed
to succeed, and dirent read errors (`Err(_) => continue`) are not
modelled.  Only ever invoked on `dir` nodes.  Returns the subtree total
and the updated state. -/
def walk (cfg : Config) (t : FsTree) (current_depth : Int) (path : String)
    (st : WalkState) : Int × WalkState :=
  match t with
  | .file _ _ _ => (0, st)
  | .dir _ statOk _ m children =>
      if statOk = false then (0, st)
      else if devMismatch cfg.root_dev m.dev then (0, st)
      else walkChildren cfg children current_depth path
            (cfg.size_format.get_dir_size m.stats, st)

/-- The entry loop of `recursive_dir_iter` (main.rs lines 501-651): fold
`entryCheck` over the entries, recursing into each `subdir` with depth
`current_depth + 1` and emitting its total post-order when `summarize` is
off and the total meets the threshold (lines 597-610), then folding the
subtree total into the running total (line 612). -/
def walkChildren (cfg : Config) (cs : List FsTree) (current_depth : Int)
    (path : String) (acc : Int × WalkState) : Int × WalkState :=
  match cs with
  | [] => acc
  | c :: rest =>
      match entryCheck cfg c current_depth path acc.2 with
      | .skip st1 => walkChildren cfg rest current_depth path (acc.1, st1)
      | .subdir childPath st1 =>
          match walk cfg c (current_depth + 1) childPath st1 with
          | (subdir_size, st2) =>
              let st3 :=
                if cfg.summarize = false ∧ subdir_size ≥ cfg.threshold_size then
                  ⟨st2.seen, st2.output ++ [(subdir_size, childPath)]⟩
                else st2
              walkChildren cfg rest current_depth path (acc.1 + subdir_size, st3)
      | .leaf delta st1 => walkChildren cfg rest current_depth path (acc.1 + delta, st1)

end

/-- One iteration of the entry loop as the pair (contribution added to the
running total, updated state): the step that `walkChildren` folds
(`walkChildren_cons` below). -/
def entryStep (cfg : Config) (c : FsTree) (current_depth : Int) (path : String)
    (st : WalkState) : Int × WalkState :=
  match entryCheck cfg c current_depth path st with
  | .skip st1 => (0, st1)
  | .subdir childPath st1 =>
      match walk cfg c (current_depth + 1) childPath st1 with
      | (subdir_size, st2) =>
          if cfg.summarize = false ∧ subdir_size ≥ cfg.threshold_size then
            (subdir_size, ⟨st2.seen, st2.output ++ [(subdir_size, childPath)]⟩)
          else (subdir_size, st2)
  | .leaf delta st1 => (delta, st1)

/-- Whether the root `open` in `process_directories` (main.rs lines
345-363) passes `O_NOFOLLOW`: the source branches on `count_hardlinks`,
not on `follow_symlinks`. -/
def root_open_nofollow (count_hardlinks : Bool) : Bool := !count_hardlinks

/-- Whether the child `openat` in `recursive_dir_iter` (main.rs lines
547-566) passes `O_NOFOLLOW`: the source branches on `follow_sysmlink`. -/
def child_open_nofollow (follow_symlinks : Bool) : Bool := !follow_symlinks

/-- Whether the `fstatat` calls in `recursive_dir_iter` (main.rs lines
470-482 and 513-523) pass `AT_SYMLINK_NOFOLLOW`: the source branches on
`follow_sysmlink`. -/
def stat_nofollow (follow_symlinks : Bool) : Bool := !follow_symlinks

/-- Contribution of one entry to its parent's total (first component of
`entryStep`). -/
def entryDelta (cfg : Config) (c : FsTree) (current_depth : Int) (path : String)
    (st : WalkState) : Int :=
  (entryStep cfg c current_depth path st).1

/-- The per-child contributions of a list of entries, each taken in the
state left behind by its predecessors. -/
def childDeltas (cfg : Config) : List FsTree → Int → String → WalkState → List Int
  | [], _, _, _ => []
  | c :: cs, d, p, st =>
      entryDelta cfg c d p st :: childDeltas cfg cs d p (entryStep cfg c d p st).2

mutual

/-- Sum over all directory nodes of a subtree of their own
`get_dir_size` contribution. -/
def sumDirOwn (fmt : SizeFormat) : FsTree → Int
  | .file _ _ _ => 0
  | .dir _ _ _ m children => fmt.get_dir_size m.stats + sumDirOwnList fmt children

def sumDirOwnList (fmt : SizeFormat) : List FsTree → Int
  | [] => 0
  | c :: cs => sumDirOwn fmt c + sumDirOwnList fmt cs

end

mutual

/-- Sum over all non-directory nodes of a subtree of their
`get_file_size` contribution. -/
def sumFileOwn (fmt : SizeFormat) : FsTree → Int
  | .file _ _ m => fmt.get_file_size m.stats
  | .dir _ _ _ _ children => sumFileOwnList fmt children

def sumFileOwnList (fmt : SizeFormat) : List FsTree → Int
  | [] => 0
  | c :: cs => sumFileOwn fmt c + sumFileOwnList fmt cs

end

mutual

/-- Every node of the tree is fully visible to the walker and hit by no
filter: stats and opens succeed, no `.`/`..` names, nothing excluded, no
hard links (`nlink ≤ 1`) and no device mismatch against `root_dev`. -/
def goodTree (cfg : Config) : FsTree → Bool
  | .file n s m =>
      s && !(n = "." || n = "..") && !excluded cfg n &&
        decide (m.nlink ≤ 1) && !devMismatch cfg.root_dev m.dev
  | .dir n s o m children =>
      s && o && !(n = "." || n = "..") && !excluded cfg n &&
        decide (m.nlink ≤ 1) && !devMismatch cfg.root_dev m.dev &&
        goodTreeList cfg children

def goodTreeList (cfg : Config) : List FsTree → Bool
  | [] => true
  | c :: cs => goodTree cfg c && goodTreeList cfg cs

end


/-! ### Helper lemmas -/

theorem ceil_div_eq (a b : Int) (hb : 0 < b) : ceil_div a b = ⌈(a : ℚ) / (b : ℚ)⌉ := by
  have hbt : ((b.toNat : ℕ) : ℤ) = b := Int.toNat_of_nonneg hb.le
  have h2 := Rat.floor_intCast_div_natCast (-a) b.toNat
  rw [hbt] at h2
  have hcast : ((b.toNat : ℕ) : ℚ) = (b : ℚ) := by
    exact_mod_cast congrArg (fun z : ℤ => (z : ℚ)) hbt
  rw [hcast] at h2
  have hneg : ((-a : ℤ) : ℚ) / (b : ℚ) = -((a : ℚ) / (b : ℚ)) := by push_cast; ring
  rw [hneg, Int.floor_neg] at h2
  rw [ceil_div, Int.fdiv_eq_ediv _ hb.le, ← h2, neg_neg]

/-- `walkChildren` folds `entryStep` over the entries. -/
theorem walkChildren_cons (cfg : Config) (c : FsTree) (rest : List FsTree)
    (d : Int) (p : String) (acc : Int × WalkState) :
    walkChildren cfg (c :: rest) d p acc =
      walkChildren cfg rest d p
        (acc.1 + (entryStep cfg c d p acc.2).1, (entryStep cfg c d p acc.2).2) := by
  cases h : entryCheck cfg c d p acc.2 with
  | skip st1 => simp [walkChildren, entryStep, h]
  | subdir cp st1 =>
      simp only [walkChildren, entryStep, h]
      cases hw : walk cfg c (d + 1) cp st1 with
      | mk sz st2 =>
          by_cases hc : cfg.summarize = false ∧ sz ≥ cfg.threshold_size <;> simp [hc]
  | leaf delta st1 => simp [walkChildren, entryStep, h]

/-- The running total of the entry loop is the incoming accumulator plus
the per-child contributions. -/
theorem walkChildren_total (cfg : Config) (cs : List FsTree) (d : Int) (p : String) :
    ∀ acc : Int × WalkState,
      (walkChildren cfg cs d p acc).1 = acc.1 + (childDeltas cfg cs d p acc.2).sum := by
  induction cs with
  | nil => intro acc; simp [walkChildren, childDeltas]
  | cons c rest ih =>
      intro acc
      rw [walkChildren_cons, ih]
      simp [childDeltas, entryDelta]
      ring

/-- An entry whose parent-relative stat fails is skipped with nothing
changed. -/
theorem entryStep_statFail (cfg : Config) (c : FsTree) (d : Int) (p : String)
    (st : WalkState) (h : c.statOk = false) : entryStep cfg c d p st = (0, st) := by
  by_cases h1 : c.name = "." ∨ c.name = ".."
  · simp [entryStep, entryCheck, h1]
  · simp [entryStep, entryCheck, h1, h]

/-- An excluded entry is skipped with nothing changed. -/
theorem entryStep_excluded (cfg : Config) (c : FsTree) (d : Int) (p : String)
    (st : WalkState) (h : excluded cfg c.name = true) :
    entryStep cfg c d p st = (0, st) := by
  by_cases h1 : c.name = "." ∨ c.name = ".."
  · simp [entryStep, entryCheck, h1]
  · by_cases h2 : c.statOk = false
    · simp [entryStep, entryCheck, h1, h2]
    · simp [entryStep, entryCheck, h1, h2, h]

/-- An entry whose hard-link identity was already seen is skipped with
nothing changed. -/
theorem entryStep_seen (cfg : Config) (c : FsTree) (d : Int) (p : String)
    (st : WalkState) (hl : cfg.count_hard_links = false) (hn : c.meta.nlink > 1)
    (hm : (c.meta.dev, c.meta.ino) ∈ st.seen) :
    entryStep cfg c d p st = (0, st) := by
  by_cases h1 : c.name = "." ∨ c.name = ".."
  · simp [entryStep, entryCheck, h1]
  · by_cases h2 : c.statOk = false
    · simp [entryStep, entryCheck, h1, h2]
    · by_cases h3 : excluded cfg c.name = true
      · simp [entryStep, entryCheck, h1, h2, h3]
      · simp [entryStep, entryCheck, h1, h2, h3, hl, hn, hm]

/-- A directory entry on the wrong side of the device boundary contributes
nothing to the total. -/
theorem entryStep_devMismatch (cfg : Config) (nm : String) (so oo : Bool) (m : Meta)
    (ch : List FsTree) (d : Int) (p : String) (st : WalkState)
    (hdev : devMismatch cfg.root_dev m.dev = true) :
    (entryStep cfg (.dir nm so oo m ch) d p st).1 = 0 := by
  have hw : ∀ dd pp st2, walk cfg (.dir nm so oo m ch) dd pp st2 = (0, st2) := by
    intro dd pp st2
    cases hso : so <;> simp [walk, hso, hdev]
  by_cases h1 : nm = "." ∨ nm = ".."
  · simp [entryStep, entryCheck, FsTree.name, h1]
  · by_cases h2 : so = false
    · simp [entryStep, entryCheck, FsTree.name, FsTree.statOk, h1, h2]
    · by_cases h3 : excluded cfg nm = true
      · simp [entryStep, entryCheck, FsTree.name, FsTree.statOk, h1, h2, h3]
      · simp only [entryStep, entryCheck, FsTree.name, FsTree.statOk, FsTree.meta, h1, h2, h3]
        split_ifs <;> simp_all [hw] <;> split <;> simp



mutual

/-- In `Bytes` mode directories contribute nothing of their own. -/
theorem sumDirOwn_bytes (t : FsTree) : sumDirOwn .Bytes t = 0 := by
  cases t with
  | file nm sOk m => simp [sumDirOwn]
  | dir nm sOk oOk m ch =>
      simp [sumDirOwn, SizeFormat.get_dir_size, sumDirOwnList_bytes ch]

theorem sumDirOwnList_bytes (cs : List FsTree) : sumDirOwnList .Bytes cs = 0 := by
  cases cs with
  | nil => rfl
  | cons c rest => simp [sumDirOwnList, sumDirOwn_bytes c, sumDirOwnList_bytes rest]

end

/-- Full evaluation of one entry-loop iteration on a statable,
non-excluded, non-`.`/`..` non-directory entry whose identity does not
force a skip. -/
theorem entryStep_file_eval (cfg : Config) (nm : String) (m : Meta) (d : Int)
    (p : String) (st : WalkState) (h1 : nm ≠ ".") (h1b : nm ≠ "..")
    (hexc : excluded cfg nm = false)
    (hid : cfg.count_hard_links = true ∨ m.nlink ≤ 1 ∨ (m.dev, m.ino) ∉ st.seen) :
    entryStep cfg (.file nm true m) d p st =
      (let st1 : WalkState := ⟨if cfg.count_hard_links = false ∧ m.nlink > 1
          then (m.dev, m.ino) :: st.seen else st.seen, st.output⟩
       let fsize := cfg.size_format.get_file_size m.stats
       if cfg.list_files = true ∧ cfg.summarize = false ∧ fsize ≥ cfg.threshold_size then
         (fsize, ⟨st1.seen, st1.output ++ [(fsize, pushPath p nm)]⟩)
       else (fsize, st1)) := by
  by_cases hc : cfg.count_hard_links = false ∧ m.nlink > 1
  · have hmem : (m.dev, m.ino) ∉ st.seen := by
      rcases hid with h | h | h
      · exact absurd hc.1 (by simp [h])
      · omega
      · exact h
    by_cases hEm : cfg.list_files = true ∧ cfg.summarize = false ∧
        cfg.size_format.get_file_size m.stats ≥ cfg.threshold_size
    · simp [entryStep, entryCheck, FsTree.name, FsTree.statOk, FsTree.meta,
        h1, h1b, hexc, hc, hmem, hEm]
    · simp [entryStep, entryCheck, FsTree.name, FsTree.statOk, FsTree.meta,
        h1, h1b, hexc, hc, hmem, hEm]
  · by_cases hEm : cfg.list_files = true ∧ cfg.summarize = false ∧
        cfg.size_format.get_file_size m.stats ≥ cfg.threshold_size
    · simp [entryStep, entryCheck, FsTree.name, FsTree.statOk, FsTree.meta,
        h1, h1b, hexc, hc, hEm]
    · simp [entryStep, entryCheck, FsTree.name, FsTree.statOk, FsTree.meta,
        h1, h1b, hexc, hc, hEm]

/-- Full evaluation of one entry-loop iteration on a statable,
non-excluded, non-`.`/`..`, openable directory entry inside the depth
bound whose identity does not force a skip. -/
theorem entryStep_subdir_eval (cfg : Config) (nm : String) (oo : Bool) (m : Meta)
    (ch : List FsTree) (d : Int) (p : String) (st : WalkState)
    (h1 : nm ≠ ".") (h1b : nm ≠ "..") (hexc : excluded cfg nm = false)
    (hid : cfg.count_hard_links = true ∨ m.nlink ≤ 1 ∨ (m.dev, m.ino) ∉ st.seen)
    (hdepth : ¬(cfg.max_depth > 0 ∧ d ≥ cfg.max_depth)) (ho : oo = true) :
    entryStep cfg (.dir nm true oo m ch) d p st =
      (let st1 : WalkState := ⟨if cfg.count_hard_links = false ∧ m.nlink > 1
          then (m.dev, m.ino) :: st.seen else st.seen, st.output⟩
       let r := walk cfg (.dir nm true oo m ch) (d + 1) (pushPath p nm) st1
       if cfg.summarize = false ∧ r.1 ≥ cfg.threshold_size then
         (r.1, ⟨r.2.seen, r.2.output ++ [(r.1, pushPath p nm)]⟩)
       else (r.1, r.2)) := by
  by_cases hc : cfg.count_hard_links = false ∧ m.nlink > 1
  · have hmem : (m.dev, m.ino) ∉ st.seen := by
      rcases hid with h | h | h
      · exact absurd hc.1 (by simp [h])
      · omega
      · exact h
    by_cases hEm : cfg.summarize = false ∧
        (walk cfg (.dir nm true oo m ch) (d + 1) (pushPath p nm)
          ⟨(m.dev, m.ino) :: st.seen, st.output⟩).1 ≥ cfg.threshold_size
    · simp [entryStep, entryCheck, FsTree.name, FsTree.statOk, FsTree.meta,
        h1, h1b, hexc, hc, hmem, hdepth, ho, hEm]
    · simp [entryStep, entryCheck, FsTree.name, FsTree.statOk, FsTree.meta,
        h1, h1b, hexc, hc, hmem, hdepth, ho, hEm]
  · by_cases hEm : cfg.summarize = false ∧
        (walk cfg (.dir nm true oo m ch) (d + 1) (pushPath p nm)
          ⟨st.seen, st.output⟩).1 ≥ cfg.threshold_size
    · simp [entryStep, entryCheck, FsTree.name, FsTree.statOk, FsTree.meta,
        h1, h1b, hexc, hc, hdepth, ho, hEm]
    · simp [entryStep, entryCheck, FsTree.name, FsTree.statOk, FsTree.meta,
        h1, h1b, hexc, hc, hdepth, ho, hEm]

mutual

/-- On a fully visible, filter-free entry (`goodTree`) with no depth limit,
one entry-loop iteration contributes the whole subtree sum and leaves the
identity set unchanged. -/
theorem entryStep_good (cfg : Config) (c : FsTree) (hmd : cfg.max_depth = 0)
    (d : Int) (p : String) (st : WalkState) (hg : goodTree cfg c = true) :
    (entryStep cfg c d p st).1
        = sumDirOwn cfg.size_format c + sumFileOwn cfg.size_format c
      ∧ (entryStep cfg c d p st).2.seen = st.seen := by
  have hwrec := fun (stx : WalkState) (hdir : c.isDir = true) =>
    walk_good cfg c hmd (d + 1) (pushPath p c.name) stx hdir hg
  cases c with
  | file nm sOk m =>
      simp only [goodTree, Bool.and_eq_true, Bool.not_eq_true', Bool.or_eq_false_iff,
        decide_eq_true_eq, decide_eq_false_iff_not] at hg
      obtain ⟨⟨⟨⟨hs, hname⟩, hexc⟩, hnl⟩, _⟩ := hg
      subst hs
      rw [entryStep_file_eval cfg nm m d p st hname.1 hname.2 hexc (Or.inr (Or.inl hnl))]
      have h4 : ¬(cfg.count_hard_links = false ∧ m.nlink > 1) := by omega
      simp only [h4, if_false, sumDirOwn, sumFileOwn]
      split <;> simp
  | dir nm sOk oOk m ch =>
      simp only [goodTree, Bool.and_eq_true, Bool.not_eq_true', Bool.or_eq_false_iff,
        decide_eq_true_eq, decide_eq_false_iff_not] at hg
      obtain ⟨⟨⟨⟨⟨⟨hs, ho⟩, hname⟩, hexc⟩, hnl⟩, hdev⟩, hch⟩ := hg
      subst hs
      rw [entryStep_subdir_eval cfg nm oOk m ch d p st hname.1 hname.2 hexc
        (Or.inr (Or.inl hnl)) (by omega) ho]
      have h4 : ¬(cfg.count_hard_links = false ∧ m.nlink > 1) := by omega
      have hw := hwrec ⟨st.seen, st.output⟩ (by simp [FsTree.isDir])
      simp only [FsTree.name] at hw
      simp only [h4, if_false]
      split <;> simp_all
termination_by (sizeOf c, 1)

/-- On a fully visible, filter-free directory with no depth limit, the
walk total is the subtree sum and the identity set is unchanged. -/
theorem walk_good (cfg : Config) (t : FsTree) (hmd : cfg.max_depth = 0)
    (d : Int) (p : String) (st : WalkState) (ht : t.isDir = true)
    (hg : goodTree cfg t = true) :
    (walk cfg t d p st).1
        = sumDirOwn cfg.size_format t + sumFileOwn cfg.size_format t
      ∧ (walk cfg t d p st).2.seen = st.seen := by
  cases t with
  | file nm sOk m => simp [FsTree.isDir] at ht
  | dir nm sOk oOk m ch =>
      simp only [goodTree, Bool.and_eq_true, Bool.not_eq_true', Bool.or_eq_false_iff,
        decide_eq_true_eq, decide_eq_false_iff_not] at hg
      obtain ⟨⟨⟨⟨⟨⟨hs, ho⟩, hname⟩, hexc⟩, hnl⟩, hdev⟩, hch⟩ := hg
      have hwc := walkChildren_good cfg ch hmd d p
        (cfg.size_format.get_dir_size m.stats, st) hch
      have e1 : walk cfg (.dir nm sOk oOk m ch) d p st
          = walkChildren cfg ch d p (cfg.size_format.get_dir_size m.stats, st) := by
        simp [walk, hs, hdev]
      rw [e1]
      constructor
      · rw [hwc.1]
        simp only [sumDirOwn, sumFileOwn]
        try ring
      · exact hwc.2
termination_by (sizeOf t, 0)

/-- Folding the entry loop over fully visible, filter-free entries with no
depth limit accumulates the subtree sums and preserves the identity set. -/
theorem walkChildren_good (cfg : Config) (cs : List FsTree) (hmd : cfg.max_depth = 0)
    (d : Int) (p : String) (acc : Int × WalkState)
    (hg : goodTreeList cfg cs = true) :
    (walkChildren cfg cs d p acc).1
        = acc.1 + sumDirOwnList cfg.size_format cs + sumFileOwnList cfg.size_format cs
      ∧ (walkChildren cfg cs d p acc).2.seen = acc.2.seen := by
  cases cs with
  | nil => simp [walkChildren, sumDirOwnList, sumFileOwnList]
  | cons c rest =>
      simp only [goodTreeList, Bool.and_eq_true] at hg
      obtain ⟨hgc, hgr⟩ := hg
      have he := entryStep_good cfg c hmd d p acc.2 hgc
      have hr := walkChildren_good cfg rest hmd d p
        (acc.1 + (entryStep cfg c d p acc.2).1, (entryStep cfg c d p acc.2).2) hgr
      rw [walkChildren_cons]
      constructor
      · rw [hr.1, he.1]
        simp only [sumDirOwnList, sumFileOwnList]
        try ring
      · rw [hr.2]
        exact he.2
termination_by (sizeOf cs, 3)

end


/-- With no `-X` file the exclusion test never fires. -/
theorem excluded_off (cfg : Config) (nm : String) (h : cfg.use_exclusion = false) :
    excluded cfg nm = false := by
  simp [excluded, h]

/-- The unit scan of `get_file_sizes`, evaluated: the wrapped thresholds
for `K`..`P` coincide with the exact `divisor * 1024`, while the `E` and
`Z` thresholds overflow `i64` (wrapping to 0 and -1024), so no unit at or
above `E` can ever be selected. -/
theorem choose_unit_eq (b : Int) :
    choose_unit b =
      if b < 2 ^ 20 then some ("K", 1024)
      else if b < 2 ^ 30 then some ("M", 1048576)
      else if b < 2 ^ 40 then some ("G", 1073741824)
      else if b < 2 ^ 50 then some ("T", 1099511627776)
      else if b < 2 ^ 60 then some ("P", 1125899906842624)
      else none := by
  have hK : wrap64 (sat64 1024 * 1024) = 2 ^ 20 := by decide
  have hM : wrap64 (sat64 1048576 * 1024) = 2 ^ 30 := by decide
  have hG : wrap64 (sat64 1073741824 * 1024) = 2 ^ 40 := by decide
  have hT : wrap64 (sat64 1099511627776 * 1024) = 2 ^ 50 := by decide
  have hP : wrap64 (sat64 1125899906842624 * 1024) = 2 ^ 60 := by decide
  have hE : wrap64 (sat64 1152921504606846976 * 1024) = 0 := by decide
  have hZ : wrap64 (sat64 1180591620717411303424 * 1024) = -1024 := by decide
  simp only [choose_unit, UNITS, List.find?, hK, hM, hG, hT, hP, hE, hZ]
  rcases lt_or_le b (1048576 : Int) with h1 | h1
  · simp [h1, show b < 2 ^ 20 from by omega]
  · rcases lt_or_le b (1073741824 : Int) with h2 | h2
    · simp [not_lt.2 h1, h2, show ¬b < 2 ^ 20 from by omega, show b < 2 ^ 30 from by omega]
    · rcases lt_or_le b (1099511627776 : Int) with h3 | h3
      · simp [not_lt.2 h1, not_lt.2 h2, h3, show ¬b < 2 ^ 20 from by omega,
          show ¬b < 2 ^ 30 from by omega, show b < 2 ^ 40 from by omega]
      · rcases lt_or_le b (1125899906842624 : Int) with h4 | h4
        · simp [not_lt.2 h1, not_lt.2 h2, not_lt.2 h3, h4,
            show ¬b < 2 ^ 20 from by omega, show ¬b < 2 ^ 30 from by omega,
            show ¬b < 2 ^ 40 from by omega, show b < 2 ^ 50 from by omega]
        · rcases lt_or_le b (1152921504606846976 : Int) with h5 | h5
          · simp [not_lt.2 h1, not_lt.2 h2, not_lt.2 h3, not_lt.2 h4, h5,
              show ¬b < 2 ^ 20 from by omega, show ¬b < 2 ^ 30 from by omega,
              show ¬b < 2 ^ 40 from by omega, show ¬b < 2 ^ 50 from by omega,
              show b < 2 ^ 60 from by omega]
          · simp [not_lt.2 h1, not_lt.2 h2, not_lt.2 h3, not_lt.2 h4, not_lt.2 h5,
              not_lt.2 (by omega : (0 : Int) ≤ b), not_lt.2 (by omega : (-1024 : Int) ≤ b),
              show ¬b < 2 ^ 20 from by omega, show ¬b < 2 ^ 30 from by omega,
              show ¬b < 2 ^ 40 from by omega, show ¬b < 2 ^ 50 from by omega,
              show ¬b < 2 ^ 60 from by omega]

/-! ### Claims -/

/-- C5: the size model is a pure, total function of `FileStats` with no
failure mode: `Bytes` gives file size `stats.size` and directory size 0;
`HumanReadableDiskUsage` (`HumanReadable`) gives `stats.blocks * 512` for
files and directories alike; `BlockDiskUsage` (`Blocks`) gives
`(stats.blocks * 512) / 1024` (Rust `i64` truncating division) for both.
Totality is by construction: both functions are defined for every
`SizeFormat` and every `FileStats` value. -/
theorem C5_size_model (s : FileStats) :
    SizeFormat.get_file_size .Bytes s = s.size
    ∧ SizeFormat.get_dir_size .Bytes s = 0
    ∧ SizeFormat.get_file_size .HumanReadable s = s.blocks * 512
    ∧ SizeFormat.get_dir_size .HumanReadable s = s.blocks * 512
    ∧ SizeFormat.get_file_size .Blocks s = (s.blocks * 512).tdiv 1024
    ∧ SizeFormat.get_dir_size .Blocks s = (s.blocks * 512).tdiv 1024 :=
  ⟨rfl, rfl, rfl, rfl, rfl, rfl⟩

/-- C9: the claim says every directory open (the root's included) and every
stat uses no-follow semantics exactly when `follow_symlinks` is false, the
choice depending only on that flag.  The child `openat` and the `fstatat`
calls do follow the claim, but the root `open` of `process_directories`
(main.rs lines 345-363) passes `O_NOFOLLOW` iff `count_hardlinks` is
*false* — it branches on the hard-link flag, not the symlink flag.  With
`count_hardlinks = true` and `follow_symlinks = false` the root open
follows a symlinked root (the claim says it must fail), and with
`count_hardlinks = false` and `follow_symlinks = true` the root open
refuses a symlinked root (the claim says it must follow). -/
theorem C9_symlink_flags :
    child_open_nofollow false = true ∧ child_open_nofollow true = false
    ∧ stat_nofollow false = true ∧ stat_nofollow true = false
    ∧ root_open_nofollow true = false ∧ root_open_nofollow false = true := by
  decide

/-- C3 (amended): a directory entry encountered at
`current_depth ≥ max_depth > 0` is skipped entirely by the entry loop:
it contributes nothing to the parent's total — its own size is *not*
folded in, the `continue` at main.rs lines 543-545 fires before any
accounting — and no output line is produced for it or anything beneath
it. -/
theorem C3_depth_boundary (cfg : Config) (c : FsTree) (d : Int) (p : String)
    (st : WalkState) (hdir : c.isDir = true) (hpos : cfg.max_depth > 0)
    (hd : d ≥ cfg.max_depth) :
    (entryStep cfg c d p st).1 = 0
    ∧ (entryStep cfg c d p st).2.output = st.output := by
  cases c with
  | file nm sOk m => simp [FsTree.isDir] at hdir
  | dir nm sOk oOk m ch =>
      by_cases h1 : nm = "." ∨ nm = ".."
      · simp [entryStep, entryCheck, FsTree.name, h1]
      · by_cases h2 : sOk = false
        · simp [entryStep, entryCheck, FsTree.name, FsTree.statOk, h1, h2]
        · by_cases h3 : excluded cfg nm = true
          · simp [entryStep, entryCheck, FsTree.name, FsTree.statOk, h1, h2, h3]
          · have h5 : cfg.max_depth > 0 ∧ d ≥ cfg.max_depth := ⟨hpos, hd⟩
            by_cases hc : cfg.count_hard_links = false ∧ m.nlink > 1
            · by_cases hm : (m.dev, m.ino) ∈ st.seen
              · simp [entryStep, entryCheck, FsTree.name, FsTree.statOk, FsTree.meta,
                  h1, h2, h3, hc, hm]
              · simp [entryStep, entryCheck, FsTree.name, FsTree.statOk, FsTree.meta,
                  h1, h2, h3, hc, hm, h5]
            · simp [entryStep, entryCheck, FsTree.name, FsTree.statOk, FsTree.meta,
                h1, h2, h3, hc, h5]

/-- C3 counterexample to the claim as stated: `Blocks` mode, `max_depth = 1`,
tree `r/sub/subsub/f`.  `subsub` is encountered at depth 1 ≥ 1: the walk
total is 8 (only `r`'s own 4 plus `sub`'s own 4 1K-blocks) — the boundary
directory's own stat contribution (4) is *not* folded into the parent's
total, which refutes "the boundary directory's own size is still folded
in" (that would give 12). -/
theorem C3_counterexample :
    (walk ⟨1, none, [], [], false, false, 0, false, false, false, .Blocks⟩
        (.dir "r" true true ⟨1, 1, 1, 4096, 8⟩
          [.dir "sub" true true ⟨1, 2, 1, 4096, 8⟩
            [.dir "subsub" true true ⟨1, 3, 1, 4096, 8⟩
              [.file "f" true ⟨1, 4, 1, 100, 8⟩]]]) 0 "" ⟨[], []⟩).1 = 8
    ∧ SizeFormat.get_dir_size .Blocks (Meta.stats ⟨1, 3, 1, 4096, 8⟩) = 4
    ∧ (8 : Int) ≠ 8 + 4 := by
  decide

/-- Witness for `C3_depth_boundary` at a concrete boundary entry. -/
theorem C3_depth_boundary_witness :
    (entryStep ⟨1, none, [], [], false, false, 0, false, false, false, .Blocks⟩
        (.dir "sub" true true ⟨1, 2, 1, 4096, 8⟩ []) 1 "" ⟨[], []⟩).1 = 0
    ∧ (entryStep ⟨1, none, [], [], false, false, 0, false, false, false, .Blocks⟩
        (.dir "sub" true true ⟨1, 2, 1, 4096, 8⟩ []) 1 "" ⟨[], []⟩).2.output = [] :=
  C3_depth_boundary ⟨1, none, [], [], false, false, 0, false, false, false, .Blocks⟩
    (.dir "sub" true true ⟨1, 2, 1, 4096, 8⟩ []) 1 "" ⟨[], []⟩
    (by decide) (by decide) (by decide)

/-- C4: the claim says a directory whose resolved absolute path is in the
exclusion set is skipped entirely.  The exclusion test (main.rs lines
525-531) compares only the *bare entry name* (`PathBuf::from(file_name)`)
against the set of absolute paths built by `exclude_list`, so the match
can never fire — an absolute path starts with `/` and an entry name never
contains `/`.  Evaluation at the failing input: the exclusion set holds
`/root/sub`, the walk (rooted at `/root`) visits exactly that directory,
yet its 100-byte file is counted into the total and its line
`(100, "/root/sub")` is emitted. -/
theorem C4_path_exclusion :
    excluded ⟨0, none, ["/root/sub"], [], false, false, 0, false, false, true, .Bytes⟩
        "sub" = false
    ∧ (walk ⟨0, none, ["/root/sub"], [], false, false, 0, false, false, true, .Bytes⟩
        (.dir "r" true true ⟨1, 1, 1, 4096, 8⟩
          [.dir "sub" true true ⟨1, 2, 1, 4096, 8⟩
            [.file "big" true ⟨1, 3, 1, 100, 8⟩]]) 0 "/root" ⟨[], []⟩).1 = 100
    ∧ (walk ⟨0, none, ["/root/sub"], [], false, false, 0, false, false, true, .Bytes⟩
        (.dir "r" true true ⟨1, 1, 1, 4096, 8⟩
          [.dir "sub" true true ⟨1, 2, 1, 4096, 8⟩
            [.file "big" true ⟨1, 3, 1, 100, 8⟩]]) 0 "/root" ⟨[], []⟩).2.output
        = [(100, "/root/sub")] := by
  decide

/-- C8 (amended): the `-x` device bound is enforced only for directory
entries — the check (main.rs lines 484-488) runs on the stat of the opened
directory inside the recursive call, so a mismatched directory contributes
0 and its subtree is never scanned (the recursive call returns the state
untouched).  A *non-directory* entry is never compared against the root
device: if it passes the name/stat/exclusion/identity tests its
`get_file_size` is always added, whatever its device. -/
theorem C8_device_boundary (cfg : Config) (d : Int) (p : String) :
    (∀ (nm : String) (so oo : Bool) (m : Meta) (ch : List FsTree) (st : WalkState),
        devMismatch cfg.root_dev m.dev = true →
          (entryStep cfg (.dir nm so oo m ch) d p st).1 = 0
          ∧ ∀ st2, walk cfg (.dir nm so oo m ch) (d + 1) (pushPath p nm) st2 = (0, st2))
    ∧ (∀ (nm : String) (m : Meta) (st : WalkState), nm ≠ "." → nm ≠ ".." →
        excluded cfg nm = false →
        (cfg.count_hard_links = true ∨ m.nlink ≤ 1 ∨ (m.dev, m.ino) ∉ st.seen) →
        (entryStep cfg (.file nm true m) d p st).1
          = cfg.size_format.get_file_size m.stats) := by
  constructor
  · intro nm so oo m ch st hdev
    refine ⟨entryStep_devMismatch cfg nm so oo m ch d p st hdev, ?_⟩
    intro st2
    cases hso : so <;> simp [walk, hso, hdev]
  · intro nm m st h1 h1b hexc hid
    rw [entryStep_file_eval cfg nm m d p st h1 h1b hexc hid]
    dsimp only
    split <;> rfl

/-- C8 counterexample to the claim as stated: the root device is bound to
1 and the child file `f` lives on device 2, yet the walk total is 100 —
the file's full size — where the claim ("every entry — directory or
non-directory alike — ... is not counted in any total") predicts 0. -/
theorem C8_counterexample :
    devMismatch (some 1) 2 = true
    ∧ (walk ⟨0, some 1, [], [], false, false, 0, false, false, false, .Bytes⟩
        (.dir "r" true true ⟨1, 1, 1, 4096, 8⟩ [.file "f" true ⟨2, 5, 1, 100, 8⟩])
        0 "" ⟨[], []⟩).1 = 100 := by
  decide

/-- Witness for `C8_device_boundary`: a cross-device directory contributes
0; a cross-device file is still counted at its full size. -/
theorem C8_device_boundary_witness :
    (entryStep ⟨0, some 1, [], [], false, false, 0, false, false, false, .Bytes⟩
        (.dir "sub" true true ⟨2, 6, 1, 4096, 8⟩ []) 0 "" ⟨[], []⟩).1 = 0
    ∧ (entryStep ⟨0, some 1, [], [], false, false, 0, false, false, false, .Bytes⟩
        (.file "f" true ⟨2, 5, 1, 100, 8⟩) 0 "" ⟨[], []⟩).1 = 100 := by
  obtain ⟨hA, hB⟩ :=
    C8_device_boundary ⟨0, some 1, [], [], false, false, 0, false, false, false, .Bytes⟩ 0 ""
  refine ⟨(hA "sub" true true ⟨2, 6, 1, 4096, 8⟩ [] ⟨[], []⟩ (by decide)).1, ?_⟩
  rw [hB "f" ⟨2, 5, 1, 100, 8⟩ ⟨[], []⟩ (by decide) (by decide) (by decide)
    (Or.inr (Or.inl (by decide)))]
  decide



/-- C1 (amended): conservation of the walk total.  (i) For a directory
whose own stat succeeds and which passes the device bound, the subtree
total is its own `get_dir_size` contribution plus the sum of the
per-child contributions, each taken in the state left by its
predecessors.  (ii)-(v) A child skipped by a failed stat, by exclusion,
by the hard-link identity filter, or (for a directory) by the device
boundary contributes nothing.  (vi) Over a tree in which every stat and
open succeeds and no entry is excluded, hard-linked or cross-device
(`goodTree`), a traversal with *no depth limit* (`max_depth = 0`) returns
the sum of every directory's own contribution plus every non-directory's
contribution, and (vii) under `Bytes` exactly the sum of the leaf
apparent sizes (directories contributing 0).  The claim as stated asserts
(vi)/(vii) for every traversal; the no-depth-limit condition is forced by
`C1_counterexample`. -/
theorem C1_conservation (cfg : Config) (n : String) (so oo : Bool) (m : Meta)
    (children : List FsTree) (d : Int) (p : String) (st : WalkState)
    (hso : so = true) (hdev : devMismatch cfg.root_dev m.dev = false) :
    ((walk cfg (.dir n so oo m children) d p st).1
        = cfg.size_format.get_dir_size m.stats + (childDeltas cfg children d p st).sum)
    ∧ (∀ (c : FsTree) (st2 : WalkState), c.statOk = false →
        entryStep cfg c d p st2 = (0, st2))
    ∧ (∀ (c : FsTree) (st2 : WalkState), excluded cfg c.name = true →
        entryStep cfg c d p st2 = (0, st2))
    ∧ (∀ (c : FsTree) (st2 : WalkState), cfg.count_hard_links = false →
        c.meta.nlink > 1 → (c.meta.dev, c.meta.ino) ∈ st2.seen →
        entryStep cfg c d p st2 = (0, st2))
    ∧ (∀ (nm : String) (so2 oo2 : Bool) (m2 : Meta) (ch2 : List FsTree) (st2 : WalkState),
        devMismatch cfg.root_dev m2.dev = true →
        (entryStep cfg (.dir nm so2 oo2 m2 ch2) d p st2).1 = 0)
    ∧ (cfg.max_depth = 0 → goodTree cfg (.dir n so oo m children) = true →
        (walk cfg (.dir n so oo m children) d p st).1
          = sumDirOwn cfg.size_format (.dir n so oo m children)
            + sumFileOwn cfg.size_format (.dir n so oo m children))
    ∧ (cfg.max_depth = 0 → goodTree cfg (.dir n so oo m children) = true →
        cfg.size_format = .Bytes →
        (walk cfg (.dir n so oo m children) d p st).1
          = sumFileOwn .Bytes (.dir n so oo m children)) := by
  refine ⟨?_, ?_, ?_, ?_, ?_, ?_, ?_⟩
  · have e1 : walk cfg (.dir n so oo m children) d p st
        = walkChildren cfg children d p (cfg.size_format.get_dir_size m.stats, st) := by
      simp [walk, hso, hdev]
    rw [e1]
    exact walkChildren_total cfg children d p (cfg.size_format.get_dir_size m.stats, st)
  · intro c st2 h
    exact entryStep_statFail cfg c d p st2 h
  · intro c st2 h
    exact entryStep_excluded cfg c d p st2 h
  · intro c st2 h1 h2 h3
    exact entryStep_seen cfg c d p st2 h1 h2 h3
  · intro nm so2 oo2 m2 ch2 st2 h
    exact entryStep_devMismatch cfg nm so2 oo2 m2 ch2 d p st2 h
  · intro hmd hg
    exact (walk_good cfg _ hmd d p st (by simp [FsTree.isDir]) hg).1
  · intro hmd hg hb
    have hw := (walk_good cfg (.dir n so oo m children) hmd d p st
      (by simp [FsTree.isDir]) hg).1
    rw [hw, hb, sumDirOwn_bytes]
    simp

/-- C1 counterexample to the claim as stated: the tree `r/sub/subsub/f`
has no excluded, hard-linked or cross-device entries and every stat and
open succeeds (`goodTree`), `f` is a 100-byte leaf, yet a `Bytes`-mode
traversal with `max_depth = 1` returns 0, not the 100-byte leaf sum —
descent is cut at `subsub`, so the unconditional "the root total equals
the sum of leaf apparent sizes under Bytes mode" fails. -/
theorem C1_counterexample :
    goodTree ⟨1, none, [], [], false, false, 0, false, false, false, .Bytes⟩
        (.dir "r" true true ⟨1, 1, 1, 4096, 8⟩
          [.dir "sub" true true ⟨1, 2, 1, 4096, 8⟩
            [.dir "subsub" true true ⟨1, 3, 1, 4096, 8⟩
              [.file "f" true ⟨1, 4, 1, 100, 8⟩]]]) = true
    ∧ sumFileOwn .Bytes
        (.dir "r" true true ⟨1, 1, 1, 4096, 8⟩
          [.dir "sub" true true ⟨1, 2, 1, 4096, 8⟩
            [.dir "subsub" true true ⟨1, 3, 1, 4096, 8⟩
              [.file "f" true ⟨1, 4, 1, 100, 8⟩]]]) = 100
    ∧ (walk ⟨1, none, [], [], false, false, 0, false, false, false, .Bytes⟩
        (.dir "r" true true ⟨1, 1, 1, 4096, 8⟩
          [.dir "sub" true true ⟨1, 2, 1, 4096, 8⟩
            [.dir "subsub" true true ⟨1, 3, 1, 4096, 8⟩
              [.file "f" true ⟨1, 4, 1, 100, 8⟩]]]) 0 "" ⟨[], []⟩).1 = 0
    ∧ (0 : Int) ≠ 100 := by
  decide

/-- Witness for `C1_conservation` on a one-file tree in `Bytes` mode. -/
theorem C1_conservation_witness :
    ((walk ⟨0, none, [], [], false, false, 0, false, false, false, .Bytes⟩
        (.dir "r" true true ⟨1, 1, 1, 4096, 8⟩ [.file "a" true ⟨1, 2, 1, 100, 8⟩])
        0 "" ⟨[], []⟩).1
      = SizeFormat.get_dir_size .Bytes (Meta.stats ⟨1, 1, 1, 4096, 8⟩)
        + (childDeltas ⟨0, none, [], [], false, false, 0, false, false, false, .Bytes⟩
            [.file "a" true ⟨1, 2, 1, 100, 8⟩] 0 "" ⟨[], []⟩).sum)
    ∧ entryStep ⟨0, none, [], [], false, false, 0, false, false, false, .Bytes⟩
        (.file "x" false ⟨1, 9, 1, 5, 8⟩) 0 "" ⟨[], []⟩ = (0, ⟨[], []⟩)
    ∧ ((walk ⟨0, none, [], [], false, false, 0, false, false, false, .Bytes⟩
        (.dir "r" true true ⟨1, 1, 1, 4096, 8⟩ [.file "a" true ⟨1, 2, 1, 100, 8⟩])
        0 "" ⟨[], []⟩).1
      = sumDirOwn .Bytes
          (.dir "r" true true ⟨1, 1, 1, 4096, 8⟩ [.file "a" true ⟨1, 2, 1, 100, 8⟩])
        + sumFileOwn .Bytes
          (.dir "r" true true ⟨1, 1, 1, 4096, 8⟩ [.file "a" true ⟨1, 2, 1, 100, 8⟩]))
    ∧ ((walk ⟨0, none, [], [], false, false, 0, false, false, false, .Bytes⟩
        (.dir "r" true true ⟨1, 1, 1, 4096, 8⟩ [.file "a" true ⟨1, 2, 1, 100, 8⟩])
        0 "" ⟨[], []⟩).1
      = sumFileOwn .Bytes
          (.dir "r" true true ⟨1, 1, 1, 4096, 8⟩ [.file "a" true ⟨1, 2, 1, 100, 8⟩])) := by
  obtain ⟨h1, h2, _, _, _, h6, h7⟩ :=
    C1_conservation ⟨0, none, [], [], false, false, 0, false, false, false, .Bytes⟩
      "r" true true ⟨1, 1, 1, 4096, 8⟩ [.file "a" true ⟨1, 2, 1, 100, 8⟩]
      0 "" ⟨[], []⟩ rfl (by decide)
  exact ⟨h1, h2 (.file "x" false ⟨1, 9, 1, 5, 8⟩) ⟨[], []⟩ (by decide),
    h6 rfl (by decide), h7 rfl (by decide) rfl⟩



/-- C2: hard-link handling.  (i) With `count_hard_links` off, the first
occurrence of a non-directory entry with `nlink > 1` is counted at its
full size and its `(device, inode)` identity is inserted into the seen
set; (ii) any later occurrence of an identity already in the set is
skipped with nothing changed; (iii) with `count_hard_links` on every
occurrence is counted and the seen set is untouched; (iv) an entry with
`nlink ≤ 1` is always counted and the seen set is untouched.  (v)/(vi)
Consequently, on a tree holding two hard links `a`, `b` to one file
(same stats `fm`, `nlink > 1`), the walk total is the directory's own
contribution plus the file's size once when `count_hard_links` is false,
and plus twice the file's size when it is true. -/
theorem C2_hard_links (cfg : Config) (d : Int) (p : String) :
    (∀ (nm : String) (m : Meta) (st : WalkState), nm ≠ "." → nm ≠ ".." →
        excluded cfg nm = false → cfg.count_hard_links = false → m.nlink > 1 →
        (m.dev, m.ino) ∉ st.seen →
        (entryStep cfg (.file nm true m) d p st).1 = cfg.size_format.get_file_size m.stats
        ∧ (entryStep cfg (.file nm true m) d p st).2.seen = (m.dev, m.ino) :: st.seen)
    ∧ (∀ (c : FsTree) (st : WalkState), cfg.count_hard_links = false →
        c.meta.nlink > 1 → (c.meta.dev, c.meta.ino) ∈ st.seen →
        entryStep cfg c d p st = (0, st))
    ∧ (∀ (nm : String) (m : Meta) (st : WalkState), nm ≠ "." → nm ≠ ".." →
        excluded cfg nm = false → cfg.count_hard_links = true →
        (entryStep cfg (.file nm true m) d p st).1 = cfg.size_format.get_file_size m.stats
        ∧ (entryStep cfg (.file nm true m) d p st).2.seen = st.seen)
    ∧ (∀ (nm : String) (m : Meta) (st : WalkState), nm ≠ "." → nm ≠ ".." →
        excluded cfg nm = false → m.nlink ≤ 1 →
        (entryStep cfg (.file nm true m) d p st).1 = cfg.size_format.get_file_size m.stats
        ∧ (entryStep cfg (.file nm true m) d p st).2.seen = st.seen)
    ∧ (∀ (rm fm : Meta) (st : WalkState), cfg.use_exclusion = false →
        cfg.root_dev = none → cfg.count_hard_links = false → fm.nlink > 1 →
        (fm.dev, fm.ino) ∉ st.seen →
        (walk cfg (.dir "r" true true rm [.file "a" true fm, .file "b" true fm])
            d p st).1
          = cfg.size_format.get_dir_size rm.stats + cfg.size_format.get_file_size fm.stats)
    ∧ (∀ (rm fm : Meta) (st : WalkState), cfg.use_exclusion = false →
        cfg.root_dev = none → cfg.count_hard_links = true →
        (walk cfg (.dir "r" true true rm [.file "a" true fm, .file "b" true fm])
            d p st).1
          = cfg.size_format.get_dir_size rm.stats
            + 2 * cfg.size_format.get_file_size fm.stats) := by
  have hfirst : ∀ (nm : String) (m : Meta) (st : WalkState), nm ≠ "." → nm ≠ ".." →
      excluded cfg nm = false → cfg.count_hard_links = false → m.nlink > 1 →
      (m.dev, m.ino) ∉ st.seen →
      (entryStep cfg (.file nm true m) d p st).1 = cfg.size_format.get_file_size m.stats
      ∧ (entryStep cfg (.file nm true m) d p st).2.seen = (m.dev, m.ino) :: st.seen := by
    intro nm m st h1 h1b hexc hcnt hn hmem
    rw [entryStep_file_eval cfg nm m d p st h1 h1b hexc (Or.inr (Or.inr hmem))]
    have hc : cfg.count_hard_links = false ∧ m.nlink > 1 := ⟨hcnt, hn⟩
    dsimp only
    rw [if_pos hc]
    constructor
    · split <;> rfl
    · split <;> rfl
  have hcounted : ∀ (nm : String) (m : Meta) (st : WalkState), nm ≠ "." → nm ≠ ".." →
      excluded cfg nm = false →
      ¬(cfg.count_hard_links = false ∧ m.nlink > 1) →
      (cfg.count_hard_links = true ∨ m.nlink ≤ 1 ∨ (m.dev, m.ino) ∉ st.seen) →
      (entryStep cfg (.file nm true m) d p st).1 = cfg.size_format.get_file_size m.stats
      ∧ (entryStep cfg (.file nm true m) d p st).2.seen = st.seen := by
    intro nm m st h1 h1b hexc hneg hid
    rw [entryStep_file_eval cfg nm m d p st h1 h1b hexc hid]
    dsimp only
    rw [if_neg hneg]
    constructor
    · split <;> rfl
    · split <;> rfl
  refine ⟨hfirst, ?_, ?_, ?_, ?_, ?_⟩
  · intro c st hcnt hn hmem
    exact entryStep_seen cfg c d p st hcnt hn hmem
  · intro nm m st h1 h1b hexc hcnt
    exact hcounted nm m st h1 h1b hexc (by simp [hcnt]) (Or.inl hcnt)
  · intro nm m st h1 h1b hexc hnl
    exact hcounted nm m st h1 h1b hexc (by omega) (Or.inr (Or.inl hnl))
  · intro rm fm st huse hroot hcnt hn hmem
    have hexa := excluded_off cfg "a" huse
    have hexb := excluded_off cfg "b" huse
    have hA := hfirst "a" fm st (by decide) (by decide) hexa hcnt hn hmem
    have hB := entryStep_seen cfg (.file "b" true fm) d p
      ((entryStep cfg (.file "a" true fm) d p st).2) hcnt
      (by simpa [FsTree.meta] using hn)
      (by simp only [FsTree.meta]; rw [hA.2]; exact List.mem_cons_self _ _)
    have e1 : walk cfg (.dir "r" true true rm [.file "a" true fm, .file "b" true fm]) d p st
        = walkChildren cfg [.file "a" true fm, .file "b" true fm] d p
            (cfg.size_format.get_dir_size rm.stats, st) := by
      simp [walk, hroot, devMismatch]
    rw [e1, walkChildren_cons, walkChildren_cons]
    simp only [walkChildren]
    rw [hA.1]
    simp [hB]
  · intro rm fm st huse hroot hcnt
    have hexa := excluded_off cfg "a" huse
    have hexb := excluded_off cfg "b" huse
    have hA := hcounted "a" fm st (by decide) (by decide) hexa (by simp [hcnt]) (Or.inl hcnt)
    have hB := hcounted "b" fm ((entryStep cfg (.file "a" true fm) d p st).2)
      (by decide) (by decide) hexb (by simp [hcnt]) (Or.inl hcnt)
    have e1 : walk cfg (.dir "r" true true rm [.file "a" true fm, .file "b" true fm]) d p st
        = walkChildren cfg [.file "a" true fm, .file "b" true fm] d p
            (cfg.size_format.get_dir_size rm.stats, st) := by
      simp [walk, hroot, devMismatch]
    rw [e1, walkChildren_cons, walkChildren_cons]
    simp only [walkChildren]
    rw [hA.1, hB.1]
    ring

/-- Witness for `C2_hard_links`: two 100-byte hard links under a root in
`Bytes` mode give a total of 100 without `-l` and 200 with `-l`. -/
theorem C2_hard_links_witness :
    (walk ⟨0, none, [], [], false, false, 0, false, false, false, .Bytes⟩
        (.dir "r" true true ⟨1, 1, 1, 4096, 8⟩
          [.file "a" true ⟨1, 7, 2, 100, 8⟩, .file "b" true ⟨1, 7, 2, 100, 8⟩])
        0 "" ⟨[], []⟩).1 = 0 + 100
    ∧ (walk ⟨0, none, [], [], false, false, 0, false, true, false, .Bytes⟩
        (.dir "r" true true ⟨1, 1, 1, 4096, 8⟩
          [.file "a" true ⟨1, 7, 2, 100, 8⟩, .file "b" true ⟨1, 7, 2, 100, 8⟩])
        0 "" ⟨[], []⟩).1 = 0 + 2 * 100 := by
  constructor
  · have h := (C2_hard_links ⟨0, none, [], [], false, false, 0, false, false, false, .Bytes⟩
      0 "").2.2.2.2.1 ⟨1, 1, 1, 4096, 8⟩ ⟨1, 7, 2, 100, 8⟩ ⟨[], []⟩
      rfl rfl rfl (by decide) (by decide)
    exact h
  · have h := (C2_hard_links ⟨0, none, [], [], false, false, 0, false, true, false, .Bytes⟩
      0 "").2.2.2.2.2 ⟨1, 1, 1, 4096, 8⟩ ⟨1, 7, 2, 100, 8⟩ ⟨[], []⟩
      rfl rfl rfl
    exact h



/-- C6 (amended): for `b < 1024` the human-readable formatter renders
`"{b}B"`.  For `1024 ≤ b < 2^60` it scales by the first unit of the
ladder whose threshold `divisor * 1024` exceeds `b` — ranges
`[2^10, 2^20) ↦ K`, `[2^20, 2^30) ↦ M`, `[2^30, 2^40) ↦ G`,
`[2^40, 2^50) ↦ T`, `[2^50, 2^60) ↦ P` — rendering `b / divisor` with one
fractional digit followed by the unit.  For `b ≥ 2^60` the `E` and `Z`
threshold products overflow `i64` (wrapping in a release build), so *no*
unit matches and the value is rendered unscaled with suffix `"B"`; the
claim's fall-back to `Z` never occurs (`C6_counterexample`). -/
theorem C6_human_readable (b : Int) :
    (b < 1024 → get_file_sizes b = .plain b)
    ∧ (1024 ≤ b → b < 2 ^ 20 → get_file_sizes b = .scaled b 1024 "K")
    ∧ (2 ^ 20 ≤ b → b < 2 ^ 30 → get_file_sizes b = .scaled b 1048576 "M")
    ∧ (2 ^ 30 ≤ b → b < 2 ^ 40 → get_file_sizes b = .scaled b 1073741824 "G")
    ∧ (2 ^ 40 ≤ b → b < 2 ^ 50 → get_file_sizes b = .scaled b 1099511627776 "T")
    ∧ (2 ^ 50 ≤ b → b < 2 ^ 60 → get_file_sizes b = .scaled b 1125899906842624 "P")
    ∧ (2 ^ 60 ≤ b → get_file_sizes b = .scaled b 1 "B") := by
  refine ⟨?_, ?_, ?_, ?_, ?_, ?_, ?_⟩
  · intro h
    simp [get_file_sizes, h]
  · intro h1 h2
    rw [get_file_sizes, if_neg (by omega), choose_unit_eq, if_pos h2]
  · intro h1 h2
    rw [get_file_sizes, if_neg (by omega), choose_unit_eq,
      if_neg (by omega), if_pos h2]
  · intro h1 h2
    rw [get_file_sizes, if_neg (by omega), choose_unit_eq,
      if_neg (by omega), if_neg (by omega), if_pos h2]
  · intro h1 h2
    rw [get_file_sizes, if_neg (by omega), choose_unit_eq,
      if_neg (by omega), if_neg (by omega), if_neg (by omega), if_pos h2]
  · intro h1 h2
    rw [get_file_sizes, if_neg (by omega), choose_unit_eq,
      if_neg (by omega), if_neg (by omega), if_neg (by omega), if_neg (by omega),
      if_pos h2]
  · intro h1
    rw [get_file_sizes, if_neg (by omega), choose_unit_eq,
      if_neg (by omega), if_neg (by omega), if_neg (by omega), if_neg (by omega),
      if_neg (by omega)]

/-- C6 counterexample to the claim as stated: at `b = 2^60` (a valid
`i64` byte count) the first ladder unit with `b < divisor * 1024` exists —
it is `E` — yet the formatter neither scales by it nor falls back to the
largest unit `Z`: it returns the unscaled value with suffix `"B"`,
because the threshold products for `E` and `Z` overflow `i64`. -/
theorem C6_counterexample :
    (1024 : Int) ≤ 2 ^ 60
    ∧ UNITS.find? (fun q => decide ((2 ^ 60 : Int) < q.2 * 1024))
        = some ("E", 1152921504606846976)
    ∧ get_file_sizes (2 ^ 60) = .scaled (2 ^ 60) 1 "B"
    ∧ HumanSize.scaled (2 ^ 60) 1 "B" ≠ .scaled (2 ^ 60) 1152921504606846976 "E"
    ∧ HumanSize.scaled (2 ^ 60) 1 "B" ≠ .scaled (2 ^ 60) 1180591620717411303424 "Z" := by
  decide

/-- Witness for `C6_human_readable` at 500, 2048 and 2^61 bytes. -/
theorem C6_human_readable_witness :
    get_file_sizes 500 = .plain 500
    ∧ get_file_sizes 2048 = .scaled 2048 1024 "K"
    ∧ get_file_sizes (2 ^ 61) = .scaled (2 ^ 61) 1 "B" :=
  ⟨(C6_human_readable 500).1 (by decide),
   (C6_human_readable 2048).2.1 (by decide) (by decide),
   (C6_human_readable (2 ^ 61)).2.2.2.2.2.2 (by decide)⟩



/-- Appending to the fixed prefix `"-B"` is injective. -/
theorem bAppend_inj (s t : String) : ("-B" ++ s = "-B" ++ t) ↔ s = t := by
  constructor
  · intro h
    cases s with
    | mk sd =>
        cases t with
        | mk td =>
            have hd2 : '-' :: 'B' :: sd = '-' :: 'B' :: td := congrArg String.data h
            simp at hd2
            simp [hd2]
  · intro h
    rw [h]

/-- C7 (amended): for each recognized unit letter `u`, `format_size`
returns the exact ceiling `⌈size / divisor(u)⌉` followed by the letter;
for any other suffix that parses as an `i64` integer `n ≠ 0` —
*including negative integers, which Rust's `parse::<i64>` accepts* — it
returns the bare ceiling `⌈size / n⌉` with no suffix; it errors exactly
when the argument is neither a recognized unit letter nor a parseable
`i64`.  `ceil_div` agrees with the mathematical ceiling for positive
divisors, and `-B1024` on an 8192-byte subtree yields `"8"`, not
`"8192"`.  The claim as stated restricts the integer case to non-negative
specs; `C7_counterexample` shows a negative spec is accepted. -/
theorem C7_format_size (size : Int) :
    (format_size size "-BK" = .ok (toString (ceil_div size 1024) ++ "K"))
    ∧ (format_size size "-BM" = .ok (toString (ceil_div size 1048576) ++ "M"))
    ∧ (format_size size "-BG" = .ok (toString (ceil_div size 1073741824) ++ "G"))
    ∧ (format_size size "-BT" = .ok (toString (ceil_div size 1099511627776) ++ "T"))
    ∧ (format_size size "-BP" = .ok (toString (ceil_div size 1125899906842624) ++ "P"))
    ∧ (format_size size "-BE" = .ok (toString (ceil_div size 1152921504606846976) ++ "E"))
    ∧ (format_size size "-BZ" = .ok (toString (ceil_div size 1180591620717411303424) ++ "Z"))
    ∧ (∀ (s : String) (nblk : Int), parse_i64 s = some nblk → nblk ≠ 0 →
        (∀ u ∈ UNITS, s ≠ u.1) →
        format_size size ("-B" ++ s) = .ok (toString (ceil_div size nblk)))
    ∧ (∀ s : String, (format_size size ("-B" ++ s)).isOk
        = ((UNITS.any (fun u => s == u.1)) || (parse_i64 s).isSome))
    ∧ (∀ a bq : Int, 0 < bq → ceil_div a bq = ⌈(a : ℚ) / (bq : ℚ)⌉)
    ∧ format_size 8192 "-B1024" = .ok "8" := by
  refine ⟨rfl, rfl, rfl, rfl, rfl, rfl, rfl, ?_, ?_, ?_, rfl⟩
  · intro s nblk hp hn0 hns
    have hfind : UNITS.find? (fun p => decide (("-B" ++ s) = "-B" ++ p.1)) = none := by
      apply List.find?_eq_none.mpr
      intro u hu
      simp only [decide_eq_true_eq, bAppend_inj]
      exact hns u hu
    simp only [format_size, hfind]
    rw [show (⟨List.drop 2 ("-B" ++ s).data⟩ : String) = s from rfl, hp]
    simp [hn0]
  · intro s
    cases hfind : UNITS.find? (fun p => decide (("-B" ++ s) = "-B" ++ p.1)) with
    | some pr =>
        have hmem := List.mem_of_find?_eq_some hfind
        have hpred := List.find?_some hfind
        simp only [decide_eq_true_eq, bAppend_inj] at hpred
        have hany : UNITS.any (fun u => s == u.1) = true :=
          List.any_eq_true.mpr ⟨pr, hmem, by simp [hpred]⟩
        simp [format_size, hfind, hany, Except.isOk, Except.toBool]
    | none =>
        have hall : ∀ u ∈ UNITS, ¬s = u.1 := by
          intro u hu
          have h := List.find?_eq_none.mp hfind u hu
          simpa [bAppend_inj] using h
        have hany : UNITS.any (fun u => s == u.1) = false := by
          rw [List.any_eq_false]
          intro u hu
          simpa using hall u hu
        cases hp : parse_i64 s with
        | some nb =>
            simp [format_size, hfind, hany, Except.isOk, Except.toBool,
              show (⟨List.drop 2 ("-B" ++ s).data⟩ : String) = s from rfl, hp]
        | none =>
            simp [format_size, hfind, hany, Except.isOk, Except.toBool,
              show (⟨List.drop 2 ("-B" ++ s).data⟩ : String) = s from rfl, hp]
  · intro a bq hb
    exact ceil_div_eq a bq hb

/-- C7 counterexample to the claim as stated: the spec `-7` after `-B` is
neither a recognized unit letter nor a non-negative integer, so the claim
requires an error — but `parse::<i64>` accepts it and `format_size`
returns `⌈100 / (-7)⌉ = -14`. -/
theorem C7_counterexample :
    parse_i64 "-7" = some (-7)
    ∧ ((-7 : Int) < 0)
    ∧ UNITS.any (fun u => "-7" == u.1) = false
    ∧ format_size 100 ("-B" ++ "-7") = .ok "-14" :=
  ⟨by decide, by decide, by decide, rfl⟩

/-- Witness for `C7_format_size`: `-BK` on 8192 bytes gives `8K`,
`-B4096` gives the bare count `2`, `-Bfoo` is rejected. -/
theorem C7_format_size_witness :
    format_size 8192 "-BK" = .ok "8K"
    ∧ format_size 8192 ("-B" ++ "4096") = .ok "2"
    ∧ (format_size 8192 ("-B" ++ "foo")).isOk = false
    ∧ format_size 8192 "-B1024" = .ok "8" := by
  obtain ⟨h1, _, _, _, _, _, _, h8, h9, _, h11⟩ := C7_format_size 8192
  refine ⟨?_, ?_, ?_, h11⟩
  · rw [h1]
    exact rfl
  · rw [h8 "4096" 4096 (by decide) (by decide) (by decide)]
    exact rfl
  · rw [h9 "foo"]
    decide



/-- C10: `parse_size_to_bytes` returns `some` exactly when the leading
run of ASCII digits and dots of the (trimmed, uppercased) input parses as
a number, whatever follows it; a suffix that is not one of the single
letters `K`, `M`, `G`, `T`, `P`, `E`, `Z` is silently given multiplier 1,
so a threshold of `"1KB"` parses as 1 byte; and the result is `none` only
when the numeric prefix itself fails to parse. -/
theorem C10_parse_size (s : String) :
    ((parse_size_to_bytes s).isSome
        = (parse_num ((trimUpper s).takeWhile (fun c => c.isDigit || c = '.'))).isSome)
    ∧ (∀ mant frac : Nat,
        parse_num ((trimUpper s).takeWhile (fun c => c.isDigit || c = '.'))
            = some (mant, frac) →
        UNITS.find? (fun p => p.1
            = (⟨(trimUpper s).drop
                ((trimUpper s).takeWhile (fun c => c.isDigit || c = '.')).length⟩ : String))
          = none →
        parse_size_to_bytes s = some (sat64 ((mant * 1 / 10 ^ frac : Nat) : Int)))
    ∧ parse_size_to_bytes "1KB" = some 1 := by
  refine ⟨?_, ?_, by decide⟩
  · cases h : parse_num ((trimUpper s).takeWhile (fun c => c.isDigit || c = '.')) with
    | none => simp [parse_size_to_bytes, h]
    | some v => simp [parse_size_to_bytes, h]
  · intro mant frac hpn hfind
    simp [parse_size_to_bytes, hpn, hfind]

/-- Witness for `C10_parse_size` at `"1KB"`: the prefix parses as the
number 1 with no fractional digits, the suffix `KB` is not a ladder unit,
and the result is 1 byte. -/
theorem C10_parse_size_witness :
    parse_size_to_bytes "1KB" = some (sat64 ((1 * 1 / 10 ^ 0 : Nat) : Int))
    ∧ parse_size_to_bytes "1KB" = some 1 := by
  obtain ⟨h1, h2, hconc⟩ := C10_parse_size "1KB"
  exact ⟨h2 1 0 (by decide) (by decide), hconc⟩


end DuRs
